import Mathlib

/-!
Shallow embedding of the item resource service of the `starter-fastapi`
repository (files `src/starter_fastapi/models/item.py`,
`src/starter_fastapi/services/item_service.py`,
`src/starter_fastapi/core/exceptions.py`,
`src/starter_fastapi/api/v1/endpoints/items.py`).

Modelling conventions:
  * Timestamps (`datetime.now(UTC)`) are natural numbers; each mutating
    operation receives the current clock value `now` as an argument, mirroring
    the local `now = datetime.now(UTC)` in the Python code.
  * Prices are `Rat` (exact rationals standing in for the float payloads; the
    code only ever stores and compares prices, never does arithmetic on them).
  * The metadata mapping `dict[str, Any]` is an association list with opaque
    string values.  The Python files name this field inconsistently
    (`metadata` in `models/item.py`, `meta` in `item_service.py` and
    `tests/conftest.py`); the embedding uses the single field `meta`.
  * `uuid.uuid4()` is modelled by the injective fresh-id generator `genId`
    applied to a per-store creation counter: the generated strings are
    non-empty and pairwise distinct, which is exactly the property the code
    obtains from uuid4.
  * The SQL session (`session.add/commit/delete`, `select ... order_by ...
    offset ... limit`, `select func.count()`) is modelled by explicit state
    passing over the list of stored rows in insertion order; `ORDER BY
    created_at DESC` is modelled by a stable sort with respect to the
    relation `createdDesc`.
  * Python `str.strip()` is `pyStrip` (drop whitespace from both ends).
  * Exceptions (`NotFoundError`, pydantic validation failure) are `Except`
    results.
-/

deriving instance DecidableEq for Except

/-- Metadata mapping of an item (`dict[str, Any]` in the source); JSON values
are modelled as opaque strings. -/
abbrev Meta := List (String × String)

/-- The stored item record (`Item` in `models/item.py`: the fields of
`ItemBase` plus `id`, `created_at`, `updated_at`). -/
structure Item where
  id : String
  name : String
  description : Option String
  price : Rat
  is_available : Bool
  meta : Meta
  created_at : Nat
  updated_at : Nat
deriving DecidableEq, Repr

/-- Python `str.strip()` on the underlying character list: drop whitespace
from both ends. -/
def stripChars (l : List Char) : List Char :=
  ((l.dropWhile Char.isWhitespace).reverse.dropWhile Char.isWhitespace).reverse

/-- Python `str.strip()` lifted to `String`. -/
def pyStrip (s : String) : String := String.mk (stripChars s.data)

/-- Validation failure (pydantic `ValidationError` /
`core/exceptions.py:ValidationError`); carries a message naming the violated
constraint. -/
structure ValidationErr where
  message : String
deriving DecidableEq, Repr

/-- A raw creation payload as received by the API (`ItemCreate` input in
`models/item.py`): `description`, `is_available` and `meta` may be omitted
(`none`). -/
structure CreatePayload where
  name : String
  description : Option String
  price : Rat
  is_available : Option Bool
  meta : Option Meta
deriving DecidableEq, Repr

/-- A validated creation payload (`ItemCreate` after pydantic validation:
constraints checked, validators applied, defaults filled in). -/
structure ItemCreate where
  name : String
  description : Option String
  price : Rat
  is_available : Bool
  meta : Meta
deriving DecidableEq, Repr

/-- pydantic validation of the `description` field (`models/item.py`):
`Field(None, max_length=500)` checks the raw length, then
`validate_description` strips the value and normalises empty-after-strip to
`None`.  The length constraint is applied to the raw input because
`field_validator` (mode `after`) runs after the schema constraints. -/
def normDescr (d : Option String) : Except ValidationErr (Option String) :=
  match d with
  | none => Except.ok none
  | some s =>
    if 500 < s.length then
      Except.error { message := "description: string should have at most 500 characters" }
    else
      Except.ok (if pyStrip s = "" then none else some (pyStrip s))

/-- pydantic validation of a creation payload (`ItemBase`/`ItemCreate` in
`models/item.py`): `name` has `min_length=1, max_length=100` checked on the
raw input, then `validate_name` strips it; `description` as in `normDescr`;
`price` must satisfy `gt=0`; `is_available` defaults to `True`; `meta`
defaults to the empty mapping. -/
def validateCreate (p : CreatePayload) : Except ValidationErr ItemCreate :=
  if p.name.length < 1 then
    Except.error { message := "name: string should have at least 1 character" }
  else if 100 < p.name.length then
    Except.error { message := "name: string should have at most 100 characters" }
  else
    match normDescr p.description with
    | Except.error e => Except.error e
    | Except.ok descr =>
      if p.price ≤ 0 then
        Except.error { message := "price: input should be greater than 0" }
      else
        Except.ok
          { name := pyStrip p.name
            description := descr
            price := p.price
            is_available := p.is_available.getD true
            meta := p.meta.getD [] }

/-- A raw update payload (`ItemUpdate` input in `models/item.py`): every
field is optional (`none` = omitted, i.e. not in
`model_dump(exclude_unset=True)`).  For `description` the inner `Option`
distinguishes an explicit `null` (clearing) from a string value.  An explicit
JSON `null` for `name`, `price`, `is_available` or `metadata` (a degenerate
input none of the verified claims involve) is not modelled. -/
structure UpdatePayload where
  name : Option String
  description : Option (Option String)
  price : Option Rat
  is_available : Option Bool
  meta : Option Meta
deriving DecidableEq, Repr

/-- A validated update payload (`ItemUpdate` after pydantic validation). -/
structure ItemUpdate where
  name : Option String
  description : Option (Option String)
  price : Option Rat
  is_available : Option Bool
  meta : Option Meta
deriving DecidableEq, Repr

/-- pydantic validation of the optional `name` field of `ItemUpdate`
(`Field(None, min_length=1, max_length=100)` on the raw input, then
`validate_name` strips). -/
def checkUpdName (v : Option String) : Except ValidationErr (Option String) :=
  match v with
  | none => Except.ok none
  | some s =>
    if s.length < 1 then
      Except.error { message := "name: string should have at least 1 character" }
    else if 100 < s.length then
      Except.error { message := "name: string should have at most 100 characters" }
    else
      Except.ok (some (pyStrip s))

/-- pydantic validation of the optional `description` field of `ItemUpdate`
(same rules as on creation). -/
def checkUpdDescr (v : Option (Option String)) :
    Except ValidationErr (Option (Option String)) :=
  match v with
  | none => Except.ok none
  | some d => (normDescr d).map some

/-- pydantic validation of the optional `price` field of `ItemUpdate`
(`Field(None, gt=0)`). -/
def checkUpdPrice (v : Option Rat) : Except ValidationErr (Option Rat) :=
  match v with
  | none => Except.ok none
  | some q =>
    if q ≤ 0 then
      Except.error { message := "price: input should be greater than 0" }
    else
      Except.ok (some q)

/-- pydantic validation of an update payload (`ItemUpdate` in
`models/item.py`). -/
def validateUpdate (u : UpdatePayload) : Except ValidationErr ItemUpdate :=
  match checkUpdName u.name with
  | Except.error e => Except.error e
  | Except.ok nm =>
    match checkUpdDescr u.description with
    | Except.error e => Except.error e
    | Except.ok descr =>
      match checkUpdPrice u.price with
      | Except.error e => Except.error e
      | Except.ok pr =>
        Except.ok
          { name := nm
            description := descr
            price := pr
            is_available := u.is_available
            meta := u.meta }

/-- `NotFoundError` of `core/exceptions.py`: carries the message and, in its
`details` mapping, the offending `item_id`. -/
structure NotFoundErr where
  message : String
  item_id : String
deriving DecidableEq, Repr

/-- The persistent store backing the service: the table rows in insertion
order plus the creation counter feeding the fresh-id generator (the model of
`uuid.uuid4()`). -/
structure DB where
  items : List Item
  nextId : Nat
deriving DecidableEq, Repr

/-- The empty store. -/
def DB.empty : DB := { items := [], nextId := 0 }

/-- Fresh-id generator standing in for `str(uuid.uuid4())`: `genId n` is the
string of `n + 1` letters `i`, so ids are non-empty and pairwise distinct. -/
def genId : Nat → String
  | 0 => "i"
  | n + 1 => "i" ++ genId n

/-- `ORDER BY created_at DESC`: `a` comes before `b` when `a.created_at ≥
b.created_at`. -/
def createdDesc (a b : Item) : Prop := b.created_at ≤ a.created_at

instance : DecidableRel createdDesc := fun a b => Nat.decLe b.created_at a.created_at

instance : IsTotal Item createdDesc := ⟨fun a b => Nat.le_total b.created_at a.created_at⟩

instance : IsTrans Item createdDesc := ⟨fun _ _ _ hab hbc => Nat.le_trans hbc hab⟩

/-- The `if available_only: query = query.where(Item.is_available == True)`
step shared by `list_items` and `get_item_count`. -/
def availFilter (available_only : Bool) (l : List Item) : List Item :=
  if available_only then l.filter (fun it => it.is_available) else l

/-- `ItemService.create_item`: build the record with a fresh id and
`created_at = updated_at = now`, insert it (`session.add` + `commit`), return
it. -/
def create_item (db : DB) (now : Nat) (d : ItemCreate) : Item × DB :=
  let item : Item :=
    { id := genId db.nextId
      name := d.name
      description := d.description
      price := d.price
      is_available := d.is_available
      meta := d.meta
      created_at := now
      updated_at := now }
  (item, { items := db.items ++ [item], nextId := db.nextId + 1 })

/-- `ItemService.get_item`: primary-key lookup (`session.get(Item, item_id)`);
on absence raise `NotFoundError` carrying the requested id. -/
def get_item (db : DB) (item_id : String) : Except NotFoundErr Item :=
  match db.items.find? (fun it => it.id == item_id) with
  | some it => Except.ok it
  | none =>
    Except.error
      { message := "Item with id " ++ item_id ++ " not found", item_id := item_id }

/-- `ItemService.list_items`: filter by availability when requested, sort by
`created_at` descending, then `OFFSET skip LIMIT limit`. -/
def list_items (db : DB) (skip limit : Nat) (available_only : Bool) : List Item :=
  ((List.insertionSort createdDesc (availFilter available_only db.items)).drop skip).take limit

/-- The field-by-field merge of `ItemService.update_item`: `setattr` for each
field present in `model_dump(exclude_unset=True)`, then `updated_at = now`.
`id` and `created_at` are not part of `ItemUpdate`, hence never touched. -/
def applyUpdate (it : Item) (u : ItemUpdate) (now : Nat) : Item :=
  { id := it.id
    name := u.name.getD it.name
    description :=
      match u.description with
      | some d => d
      | none => it.description
    price := u.price.getD it.price
    is_available := u.is_available.getD it.is_available
    meta := u.meta.getD it.meta
    created_at := it.created_at
    updated_at := now }

/-- `ItemService.update_item`: fetch the row (propagating `NotFoundError`),
merge the provided fields, stamp `updated_at`, persist.  The primary key is
unique, so the in-place row mutation is modelled by rewriting every row whose
id matches (at most one). -/
def update_item (db : DB) (item_id : String) (u : ItemUpdate) (now : Nat) :
    Except NotFoundErr (Item × DB) :=
  match get_item db item_id with
  | Except.error e => Except.error e
  | Except.ok it =>
    let it2 := applyUpdate it u now
    Except.ok
      (it2,
        { items := db.items.map (fun x => if x.id == item_id then it2 else x)
          nextId := db.nextId })

/-- `ItemService.delete_item`: fetch the row first (propagating
`NotFoundError` with the descriptive message), then remove it
(`session.delete` + `commit`); by primary-key uniqueness the removal is
modelled by dropping every row whose id matches (at most one). -/
def delete_item (db : DB) (item_id : String) : Except NotFoundErr DB :=
  match get_item db item_id with
  | Except.error e => Except.error e
  | Except.ok _ =>
    Except.ok
      { items := db.items.filter (fun x => !(x.id == item_id))
        nextId := db.nextId }

/-- `ItemService.get_item_count`: `SELECT COUNT(*)` over the optionally
filtered table. -/
def get_item_count (db : DB) (available_only : Bool) : Nat :=
  (availFilter available_only db.items).length

/-- The full, unpaginated listing the specification describes for `count`
(`len(list(skip=0, limit=infinity, available_only))`).  This definition
follows the wording of the specification and is compared against
`get_item_count`. -/
def listAllSpec (db : DB) (available_only : Bool) : List Item :=
  List.insertionSort createdDesc (availFilter available_only db.items)

/-- A service request, used to state frame properties uniformly: every
operation receives the session state and yields a result together with the
post-state. -/
inductive Op where
  | createOp (now : Nat) (d : ItemCreate)
  | getOp (item_id : String)
  | listOp (skip limit : Nat) (available_only : Bool)
  | updateOp (item_id : String) (u : ItemUpdate) (now : Nat)
  | deleteOp (item_id : String)
  | countOp (available_only : Bool)

/-- Result value of a service request. -/
inductive Out where
  | item (it : Item)
  | items (l : List Item)
  | count (n : Nat)
  | unit
deriving DecidableEq, Repr

/-- Run one service request against the store, returning the outcome and the
post-state; a raised `NotFoundError` leaves the store as it was (the handlers
raise before any mutation). -/
def runOp (db : DB) : Op → Except NotFoundErr Out × DB
  | Op.createOp now d =>
    let r := create_item db now d
    (Except.ok (Out.item r.1), r.2)
  | Op.getOp i => ((get_item db i).map Out.item, db)
  | Op.listOp s l b => (Except.ok (Out.items (list_items db s l b)), db)
  | Op.updateOp i u now =>
    match update_item db i u now with
    | Except.error e => (Except.error e, db)
    | Except.ok r => (Except.ok (Out.item r.1), r.2)
  | Op.deleteOp i =>
    match delete_item db i with
    | Except.error e => (Except.error e, db)
    | Except.ok db2 => (Except.ok Out.unit, db2)
  | Op.countOp b => (Except.ok (Out.count (get_item_count db b)), db)

/-- Invariant of the fresh-id discipline: every stored row received its id
from `genId` at some counter value below the current one. -/
def IdsAssigned (db : DB) : Prop :=
  ∀ it ∈ db.items, ∃ k, k < db.nextId ∧ it.id = genId k

/-- Store states reachable from the empty store through validated service
requests. -/
inductive Reachable : DB → Prop where
  | empty : Reachable DB.empty
  | createStep (db : DB) (now : Nat) (p : CreatePayload) (c : ItemCreate) :
      Reachable db → validateCreate p = Except.ok c →
      Reachable (create_item db now c).2
  | updateStep (db : DB) (i : String) (uraw : UpdatePayload) (u : ItemUpdate)
      (now : Nat) (it : Item) (db2 : DB) :
      Reachable db → validateUpdate uraw = Except.ok u →
      update_item db i u now = Except.ok (it, db2) → Reachable db2
  | deleteStep (db : DB) (i : String) (db2 : DB) :
      Reachable db → delete_item db i = Except.ok db2 → Reachable db2

/-- A sample validated creation payload used by concrete witnesses. -/
def cTest : ItemCreate :=
  { name := "Test Item", description := none, price := 1, is_available := true, meta := [] }
/-- A creation payload that supplies only `name` and `price`, every optional
field omitted. -/
def minimalPayload (nm : String) (pr : Rat) : CreatePayload :=
  { name := nm
    description := none
    price := pr
    is_available := none
    meta := none }
/-- The validated form of the concrete scenario payload
`{name: "Test Item", price: 99.99}`. -/
def cMinimal : ItemCreate :=
  { name := "Test Item", description := none, price := Rat.divInt 9999 100,
    is_available := true, meta := [] }
/-- The store holding exactly the item created by `create_item` on the empty
store at time 3 from `cTest`. -/
def dbOne : DB := (create_item DB.empty 3 cTest).2

/-- The item created by `create_item` on the empty store at time 3 from
`cTest`. -/
def itemOne : Item := (create_item DB.empty 3 cTest).1
/-- An update payload carrying only a new price. -/
def uPrice : ItemUpdate :=
  { name := none
    description := none
    price := some (5 : Rat)
    is_available := none
    meta := none }
/-- An update payload carrying only a non-positive price. -/
def uNegPrice : UpdatePayload :=
  { name := none
    description := none
    price := some (Rat.divInt (-10) 1)
    is_available := none
    meta := none }
/-- The validated record produced from the whitespace-only name payload. -/
def wsValidated : ItemCreate :=
  { name := ""
    description := none
    price := 1
    is_available := true
    meta := [] }

/-! ### Helper lemmas -/

theorem genId_length (n : Nat) : (genId n).length = n + 1 := by
  induction n with
  | zero => rfl
  | succ k ih =>
    show ("i" ++ genId k).length = k + 2
    rw [String.length_append, ih]
    have h1 : "i".length = 1 := rfl
    omega

theorem genId_ne_of_lt {k n : Nat} (h : k < n) : genId k ≠ genId n := by
  intro heq
  have hl := congrArg String.length heq
  rw [genId_length, genId_length] at hl
  omega

theorem genId_ne_empty (n : Nat) : genId n ≠ "" := by
  intro heq
  have hl := congrArg String.length heq
  rw [genId_length] at hl
  simp [String.length] at hl

theorem get_item_ok_mem {db : DB} {i : String} {it : Item}
    (h : get_item db i = Except.ok it) : it ∈ db.items ∧ it.id = i := by
  unfold get_item at h
  cases hf : db.items.find? (fun x => x.id == i) with
  | none => rw [hf] at h; exact absurd h (by simp)
  | some x =>
    rw [hf] at h
    have hx : x = it := by simpa using h
    subst hx
    refine ⟨List.mem_of_find?_eq_some hf, ?_⟩
    have := List.find?_some hf
    simpa using this

theorem get_item_error_id {db : DB} {i : String} {e : NotFoundErr}
    (h : get_item db i = Except.error e) : e.item_id = i := by
  unfold get_item at h
  cases hf : db.items.find? (fun x => x.id == i) with
  | none => rw [hf] at h; simp at h; rw [← h]
  | some x => rw [hf] at h; exact absurd h (by simp)

theorem availFilter_mem {b : Bool} {l : List Item} {x : Item}
    (h : x ∈ availFilter b l) : x ∈ l ∧ (b = true → x.is_available = true) := by
  cases b with
  | false => exact ⟨h, by simp⟩
  | true =>
    simp only [availFilter, if_pos] at h
    have := List.mem_filter.mp h
    exact ⟨this.1, fun _ => this.2⟩

theorem find?_append_fresh (l : List Item) (it : Item)
    (hfresh : ∀ x ∈ l, x.id ≠ it.id) :
    List.find? (fun x => x.id == it.id) (l ++ [it]) = some it := by
  rw [List.find?_append]
  have hnone : List.find? (fun x => x.id == it.id) l = none :=
    List.find?_eq_none.mpr (fun x hx => by simpa using hfresh x hx)
  rw [hnone]
  simp [List.find?]

theorem get_item_of_find? {db : DB} {i : String} {it : Item}
    (h : db.items.find? (fun x => x.id == i) = some it) :
    get_item db i = Except.ok it := by
  unfold get_item
  rw [h]


/-- C1: for every valid creation payload, `create_item` returns an Item whose
id is a non-empty string distinct from the id of every previously created
Item (every id the service ever generated is `genId k` for some `k` below the
creation counter, which `IdsAssigned` records for the stored ones), and whose
`created_at` equals its `updated_at` at the moment of creation. -/
theorem create_item_fresh_id (db : DB) (now : Nat) (d : ItemCreate)
    (hinv : IdsAssigned db) :
    (create_item db now d).1.id ≠ "" ∧
    (∀ k, k < db.nextId → (create_item db now d).1.id ≠ genId k) ∧
    (∀ old ∈ db.items, (create_item db now d).1.id ≠ old.id) ∧
    (create_item db now d).1.created_at = (create_item db now d).1.updated_at := by
  have hid : (create_item db now d).1.id = genId db.nextId := rfl
  refine ⟨?_, ?_, ?_, rfl⟩
  · rw [hid]; exact genId_ne_empty db.nextId
  · intro k hk
    rw [hid]
    exact fun h => genId_ne_of_lt hk h.symm
  · intro old hold
    obtain ⟨k, hk, hkid⟩ := hinv old hold
    rw [hid, hkid]
    exact fun h => genId_ne_of_lt hk h.symm

/-- Witness for `create_item_fresh_id`: the empty store satisfies
`IdsAssigned` vacuously. -/
theorem create_item_fresh_id_witness :
    (create_item DB.empty 7 cTest).1.id ≠ "" ∧
    (∀ k, k < DB.empty.nextId → (create_item DB.empty 7 cTest).1.id ≠ genId k) ∧
    (∀ old ∈ DB.empty.items, (create_item DB.empty 7 cTest).1.id ≠ old.id) ∧
    (create_item DB.empty 7 cTest).1.created_at = (create_item DB.empty 7 cTest).1.updated_at :=
  create_item_fresh_id DB.empty 7 cTest (fun it h => absurd h (List.not_mem_nil it))

/-- C3: creating an Item and then immediately calling `get_item` with the
returned id yields a record equal to the created one in every field. -/
theorem create_get_roundtrip (db : DB) (now : Nat) (d : ItemCreate)
    (hinv : IdsAssigned db) :
    ∃ r, get_item (create_item db now d).2 (create_item db now d).1.id = Except.ok r ∧
      r.id = (create_item db now d).1.id ∧ r.name = d.name ∧
      r.description = d.description ∧ r.price = d.price ∧
      r.is_available = d.is_available ∧ r.meta = d.meta ∧
      r.created_at = now ∧ r.updated_at = now := by
  have hfresh : ∀ x ∈ db.items, x.id ≠ (create_item db now d).1.id := by
    intro x hx
    obtain ⟨k, hk, hkid⟩ := hinv x hx
    rw [hkid]
    exact fun h => genId_ne_of_lt hk h
  refine ⟨(create_item db now d).1, ?_, rfl, rfl, rfl, rfl, rfl, rfl, rfl, rfl⟩
  exact get_item_of_find? (find?_append_fresh db.items _ hfresh)

/-- Witness for `create_get_roundtrip` at the empty store. -/
theorem create_get_roundtrip_witness :
    ∃ r, get_item (create_item DB.empty 7 cTest).2 (create_item DB.empty 7 cTest).1.id = Except.ok r ∧
      r.id = (create_item DB.empty 7 cTest).1.id ∧ r.name = cTest.name ∧
      r.description = cTest.description ∧ r.price = cTest.price ∧
      r.is_available = cTest.is_available ∧ r.meta = cTest.meta ∧
      r.created_at = 7 ∧ r.updated_at = 7 :=
  create_get_roundtrip DB.empty 7 cTest (fun it h => absurd h (List.not_mem_nil it))

theorem validateCreate_ok_fields {p : CreatePayload} {c : ItemCreate}
    (h : validateCreate p = Except.ok c) :
    c.name = pyStrip p.name ∧ c.price = p.price ∧
    c.is_available = p.is_available.getD true ∧ c.meta = p.meta.getD [] ∧
    1 ≤ p.name.length ∧ p.name.length ≤ 100 ∧ 0 < p.price := by
  unfold validateCreate at h
  split at h
  case isTrue => exact absurd h (by simp)
  case isFalse h1 =>
    split at h
    case isTrue => exact absurd h (by simp)
    case isFalse h2 =>
      split at h
      case h_1 => exact absurd h (by simp)
      case h_2 descr hnd =>
        split at h
        case isTrue => exact absurd h (by simp)
        case isFalse h3 =>
          have hc := Except.ok.inj h
          subst hc
          exact ⟨rfl, rfl, rfl, rfl, by omega, by omega, lt_of_not_le h3⟩

theorem validateCreate_error_conds {p : CreatePayload}
    (hcond : p.name.length < 1 ∨ 100 < p.name.length ∨ p.price ≤ 0) :
    ∃ e, validateCreate p = Except.error e := by
  cases hv : validateCreate p with
  | error e => exact ⟨e, rfl⟩
  | ok c =>
    obtain ⟨-, -, -, -, hlen1, hlen2, hpos⟩ := validateCreate_ok_fields hv
    rcases hcond with h | h | h
    · omega
    · omega
    · exact absurd hpos (not_lt.mpr h)


/-- C2: a creation payload that supplies only `name` and `price` validates
successfully only to a record with `is_available = true` and empty metadata
(the defaults for the omitted optional fields), and `create_item` stores and
returns exactly those values. -/
theorem create_minimal_defaults (nm : String) (pr : Rat) (c : ItemCreate)
    (h : validateCreate (minimalPayload nm pr) = Except.ok c) :
    c.is_available = true ∧ c.meta = [] ∧
    ∀ db now, (create_item db now c).1.is_available = true ∧
      (create_item db now c).1.meta = [] ∧
      (create_item db now c).1 ∈ (create_item db now c).2.items := by
  obtain ⟨-, -, hav, hmeta, -⟩ := validateCreate_ok_fields h
  refine ⟨hav, hmeta, fun db now => ⟨hav, hmeta, ?_⟩⟩
  simp [create_item]


/-- Witness for `create_minimal_defaults`: the concrete scenario
`{name: "Test Item", price: 99.99}`. -/
theorem create_minimal_defaults_witness :
    cMinimal.is_available = true ∧ cMinimal.meta = [] ∧
    ∀ db now, (create_item db now cMinimal).1.is_available = true ∧
      (create_item db now cMinimal).1.meta = [] ∧
      (create_item db now cMinimal).1 ∈ (create_item db now cMinimal).2.items :=
  create_minimal_defaults "Test Item" (Rat.divInt 9999 100) cMinimal (by decide)

theorem get_item_eq_error {db : DB} {i : String}
    (h : db.items.find? (fun x => x.id == i) = none) :
    get_item db i =
      Except.error { message := "Item with id " ++ i ++ " not found", item_id := i } := by
  unfold get_item
  rw [h]

/-- C4: when the target exists, `update_item` succeeds, changes exactly the
fields present in the payload, stamps `updated_at` with the current time
(which does not move backwards when the clock is monotone), never changes
`id` or `created_at`, and leaves every other stored row untouched. -/
theorem update_item_merge (db : DB) (i : String) (u : ItemUpdate) (now : Nat)
    (it : Item) (hget : get_item db i = Except.ok it)
    (hclock : it.updated_at ≤ now) :
    ∃ it2 db2, update_item db i u now = Except.ok (it2, db2) ∧
      it2.id = it.id ∧ it2.created_at = it.created_at ∧ it2.updated_at = now ∧
      it.updated_at ≤ it2.updated_at ∧
      (∀ v, u.name = some v → it2.name = v) ∧
      (u.name = none → it2.name = it.name) ∧
      (∀ v, u.description = some v → it2.description = v) ∧
      (u.description = none → it2.description = it.description) ∧
      (∀ v, u.price = some v → it2.price = v) ∧
      (u.price = none → it2.price = it.price) ∧
      (∀ v, u.is_available = some v → it2.is_available = v) ∧
      (u.is_available = none → it2.is_available = it.is_available) ∧
      (∀ v, u.meta = some v → it2.meta = v) ∧
      (u.meta = none → it2.meta = it.meta) ∧
      db2.items = db.items.map (fun x => if x.id == i then it2 else x) ∧
      (∀ x ∈ db.items, x.id ≠ i → x ∈ db2.items) := by
  have hupd : update_item db i u now =
      Except.ok (applyUpdate it u now,
        { items := db.items.map (fun x => if x.id == i then applyUpdate it u now else x)
          nextId := db.nextId }) := by
    unfold update_item
    rw [hget]
  refine ⟨applyUpdate it u now, _, hupd, rfl, rfl, rfl, hclock,
    ?_, ?_, ?_, ?_, ?_, ?_, ?_, ?_, ?_, ?_, rfl, ?_⟩
  · intro v hv; simp [applyUpdate, hv]
  · intro hv; simp [applyUpdate, hv]
  · intro v hv; simp [applyUpdate, hv]
  · intro hv; simp [applyUpdate, hv]
  · intro v hv; simp [applyUpdate, hv]
  · intro hv; simp [applyUpdate, hv]
  · intro v hv; simp [applyUpdate, hv]
  · intro hv; simp [applyUpdate, hv]
  · intro v hv; simp [applyUpdate, hv]
  · intro hv; simp [applyUpdate, hv]
  · intro x hx hne
    have hmem := List.mem_map_of_mem
      (fun x => if x.id == i then applyUpdate it u now else x) hx
    simpa [hne] using hmem


/-- Witness for `update_item_merge`: update only the price of the single
stored item. -/
theorem update_item_merge_witness :
    ∃ it2 db2, update_item dbOne "i" uPrice 9 = Except.ok (it2, db2) ∧
      it2.id = itemOne.id ∧ it2.created_at = itemOne.created_at ∧
      it2.updated_at = 9 ∧ itemOne.updated_at ≤ it2.updated_at ∧
      (∀ v, uPrice.name = some v → it2.name = v) ∧
      (uPrice.name = none → it2.name = itemOne.name) ∧
      (∀ v, uPrice.description = some v → it2.description = v) ∧
      (uPrice.description = none → it2.description = itemOne.description) ∧
      (∀ v, uPrice.price = some v → it2.price = v) ∧
      (uPrice.price = none → it2.price = itemOne.price) ∧
      (∀ v, uPrice.is_available = some v → it2.is_available = v) ∧
      (uPrice.is_available = none → it2.is_available = itemOne.is_available) ∧
      (∀ v, uPrice.meta = some v → it2.meta = v) ∧
      (uPrice.meta = none → it2.meta = itemOne.meta) ∧
      db2.items = dbOne.items.map (fun x => if x.id == "i" then it2 else x) ∧
      (∀ x ∈ dbOne.items, x.id ≠ "i" → x ∈ db2.items) :=
  update_item_merge dbOne "i" uPrice 9 itemOne (by decide) (by decide)

/-- C5: once `delete_item` has succeeded, `get_item` on that id fails with a
`NotFoundError` naming the id, and a second `delete_item` also fails with a
`NotFoundError` naming the id rather than silently succeeding. -/
theorem delete_then_lookup (db db2 : DB) (i : String)
    (hdel : delete_item db i = Except.ok db2) :
    (∃ e, get_item db2 i = Except.error e ∧ e.item_id = i) ∧
    (∃ e2, delete_item db2 i = Except.error e2 ∧ e2.item_id = i) := by
  unfold delete_item at hdel
  cases hget : get_item db i with
  | error e => rw [hget] at hdel; exact absurd hdel (by simp)
  | ok it =>
    rw [hget] at hdel
    have hdb2 : db2 =
        { items := db.items.filter (fun x => !(x.id == i))
          nextId := db.nextId } := by
      have := Except.ok.inj hdel
      exact this.symm
    subst hdb2
    have hnone : (db.items.filter (fun x => !(x.id == i))).find?
        (fun x => x.id == i) = none := by
      apply List.find?_eq_none.mpr
      intro x hx
      have hpred := (List.mem_filter.mp hx).2
      simp at hpred ⊢
      exact hpred
    have hgeterr :=
      @get_item_eq_error
        { items := db.items.filter (fun x => !(x.id == i)), nextId := db.nextId }
        i hnone
    refine ⟨⟨_, hgeterr, rfl⟩,
      ⟨{ message := "Item with id " ++ i ++ " not found", item_id := i }, ?_, rfl⟩⟩
    unfold delete_item
    rw [hgeterr]

/-- Witness for `delete_then_lookup`: delete the single stored item. -/
theorem delete_then_lookup_witness :
    (∃ e, get_item { items := [], nextId := 1 } "i" = Except.error e ∧
      e.item_id = "i") ∧
    (∃ e2, delete_item { items := [], nextId := 1 } "i" = Except.error e2 ∧
      e2.item_id = "i") :=
  delete_then_lookup dbOne { items := [], nextId := 1 } "i" (by decide)

/-- C6: `list_items` returns the stored items passing the availability
filter, sorted by `created_at` descending, with the first `skip` entries
dropped and at most `limit` taken; an over-large `skip` yields the empty
sequence, not an error. -/
theorem list_items_spec (db : DB) (skip limit : Nat) (available_only : Bool)
    (h1 : 1 ≤ limit) (h2 : limit ≤ 100) :
    List.Pairwise createdDesc (list_items db skip limit available_only) ∧
    list_items db skip limit available_only =
      ((listAllSpec db available_only).drop skip).take limit ∧
    (listAllSpec db available_only).Perm (availFilter available_only db.items) ∧
    (∀ it ∈ list_items db skip limit available_only,
      it ∈ db.items ∧ (available_only = true → it.is_available = true)) ∧
    (list_items db skip limit available_only).length =
      min limit ((availFilter available_only db.items).length - skip) ∧
    ((availFilter available_only db.items).length ≤ skip →
      list_items db skip limit available_only = []) := by
  have hperm := List.perm_insertionSort createdDesc (availFilter available_only db.items)
  have hsorted := List.sorted_insertionSort createdDesc (availFilter available_only db.items)
  have hsub : List.Sublist (list_items db skip limit available_only)
      (List.insertionSort createdDesc (availFilter available_only db.items)) :=
    (List.take_sublist _ _).trans (List.drop_sublist _ _)
  have hlenf : (List.insertionSort createdDesc (availFilter available_only db.items)).length =
      (availFilter available_only db.items).length := hperm.length_eq
  have hlen : (list_items db skip limit available_only).length =
      min limit ((availFilter available_only db.items).length - skip) := by
    show ((((List.insertionSort createdDesc (availFilter available_only db.items)).drop
      skip)).take limit).length = _
    rw [List.length_take, List.length_drop, hlenf]
  refine ⟨List.Pairwise.sublist hsub hsorted, rfl, hperm, ?_, hlen, ?_⟩
  · intro it hit
    have hmem : it ∈ availFilter available_only db.items :=
      hperm.mem_iff.mp (hsub.mem hit)
    exact availFilter_mem hmem
  · intro hskip
    have : (list_items db skip limit available_only).length = 0 := by
      rw [hlen]
      omega
    exact List.length_eq_zero.mp this

/-- Witness for `list_items_spec` at the one-item store with the default
pagination parameters. -/
theorem list_items_spec_witness :
    List.Pairwise createdDesc (list_items dbOne 0 100 false) ∧
    list_items dbOne 0 100 false = ((listAllSpec dbOne false).drop 0).take 100 ∧
    (listAllSpec dbOne false).Perm (availFilter false dbOne.items) ∧
    (∀ it ∈ list_items dbOne 0 100 false,
      it ∈ dbOne.items ∧ (false = true → it.is_available = true)) ∧
    (list_items dbOne 0 100 false).length =
      min 100 ((availFilter false dbOne.items).length - 0) ∧
    ((availFilter false dbOne.items).length ≤ 0 → list_items dbOne 0 100 false = []) :=
  list_items_spec dbOne 0 100 false (by decide) (by decide)

/-- C7: `get_item_count` equals the length of the full filtered, unpaginated
listing `listAllSpec` — it is not capped by any page limit; equivalently it
equals the length of `list_items` run with `skip = 0` and the count itself as
the limit. -/
theorem count_matches_full_list (db : DB) (available_only : Bool) :
    get_item_count db available_only = (listAllSpec db available_only).length ∧
    get_item_count db available_only =
      (list_items db 0 (get_item_count db available_only) available_only).length := by
  have hperm := List.perm_insertionSort createdDesc (availFilter available_only db.items)
  constructor
  · exact hperm.length_eq.symm
  · show _ = (((List.insertionSort createdDesc
      (availFilter available_only db.items)).drop 0).take _).length
    rw [List.drop_zero, List.length_take, hperm.length_eq]
    simp [get_item_count]

theorem checkUpdPrice_ok {v r : Option Rat} (h : checkUpdPrice v = Except.ok r) :
    r = v ∧ ∀ q, v = some q → 0 < q := by
  cases v with
  | none =>
    simp only [checkUpdPrice] at h
    have := Except.ok.inj h
    exact ⟨this.symm, by simp⟩
  | some q =>
    simp only [checkUpdPrice] at h
    split at h
    · exact absurd h (by simp)
    case isFalse hq =>
      have := Except.ok.inj h
      refine ⟨this.symm, ?_⟩
      intro q2 hq2
      cases hq2
      exact lt_of_not_le hq

theorem validateUpdate_ok_price {u : UpdatePayload} {v : ItemUpdate}
    (h : validateUpdate u = Except.ok v) :
    v.price = u.price ∧ ∀ q, u.price = some q → 0 < q := by
  unfold validateUpdate at h
  cases hn : checkUpdName u.name with
  | error e => rw [hn] at h; exact absurd h (by simp)
  | ok nm =>
    rw [hn] at h
    cases hd : checkUpdDescr u.description with
    | error e => rw [hd] at h; exact absurd h (by simp)
    | ok descr =>
      rw [hd] at h
      cases hp : checkUpdPrice u.price with
      | error e => rw [hp] at h; exact absurd h (by simp)
      | ok pr =>
        rw [hp] at h
        obtain ⟨hpr, hpos⟩ := checkUpdPrice_ok hp
        have hv := Except.ok.inj h
        subst hv
        exact ⟨hpr, hpos⟩

theorem update_item_ok_parts {db : DB} {i : String} {u : ItemUpdate} {now : Nat}
    {it2 : Item} {db2 : DB}
    (h : update_item db i u now = Except.ok (it2, db2)) :
    ∃ it, get_item db i = Except.ok it ∧ it2 = applyUpdate it u now ∧
      db2.items = db.items.map (fun x => if x.id == i then it2 else x) ∧
      db2.nextId = db.nextId := by
  unfold update_item at h
  cases hget : get_item db i with
  | error e => rw [hget] at h; exact absurd h (by simp)
  | ok it =>
    rw [hget] at h
    have hpair := Except.ok.inj h
    obtain ⟨h1, h2⟩ := Prod.mk.inj hpair
    refine ⟨it, rfl, h1.symm, ?_, ?_⟩
    · rw [← h2]
      simp [h1]
    · rw [← h2]

/-- Every store state reachable through the service satisfies the fresh-id
discipline `IdsAssigned`: creation hands out `genId` values below the
counter, updates keep ids, deletion only removes rows. -/
theorem reachable_idsAssigned {db : DB} (h : Reachable db) : IdsAssigned db := by
  induction h with
  | empty => intro it hit; exact absurd hit (List.not_mem_nil it)
  | createStep db now p c hr hval ih =>
    intro it hit
    rcases List.mem_append.mp hit with hmem | hmem
    · obtain ⟨k, hk, hkid⟩ := ih it hmem
      exact ⟨k, Nat.lt_succ_of_lt hk, hkid⟩
    · have hit2 : it = (create_item db now c).1 := by simpa using hmem
      subst hit2
      exact ⟨db.nextId, Nat.lt_succ_self _, rfl⟩
  | updateStep db i uraw u now it2 db2 hr hval hupd ih =>
    intro y hy
    obtain ⟨it, hget, hit2, hitems, hnext⟩ := update_item_ok_parts hupd
    rw [hitems] at hy
    obtain ⟨x, hx, hfx⟩ := List.mem_map.mp hy
    by_cases hxi : (x.id == i) = true
    · rw [if_pos hxi] at hfx
      subst hfx
      obtain ⟨k, hk, hkid⟩ := ih it (get_item_ok_mem hget).1
      refine ⟨k, by rw [hnext]; exact hk, ?_⟩
      rw [hit2]
      show it.id = genId k
      exact hkid
    · rw [if_neg hxi] at hfx
      subst hfx
      obtain ⟨k, hk, hkid⟩ := ih x hx
      exact ⟨k, by rw [hnext]; exact hk, hkid⟩
  | deleteStep db i db2 hr hdel ih =>
    intro y hy
    unfold delete_item at hdel
    cases hget : get_item db i with
    | error e => rw [hget] at hdel; exact absurd hdel (by simp)
    | ok it =>
      rw [hget] at hdel
      have hdb2 := Except.ok.inj hdel
      rw [← hdb2] at hy
      obtain ⟨k, hk, hkid⟩ := ih y (List.mem_filter.mp hy).1
      refine ⟨k, ?_, hkid⟩
      rw [← hdb2]
      exact hk

/-- C8: a creation or update payload whose price is not strictly positive is
rejected by validation, and consequently every item stored in any store state
reachable through validated service requests has a strictly positive
price. -/
theorem price_positive_invariant :
    (∀ p : CreatePayload, p.price ≤ 0 → ∃ e, validateCreate p = Except.error e) ∧
    (∀ (u : UpdatePayload) (q : Rat), u.price = some q → q ≤ 0 →
      ∃ e, validateUpdate u = Except.error e) ∧
    (∀ db, Reachable db → ∀ it ∈ db.items, 0 < it.price) := by
  refine ⟨?_, ?_, ?_⟩
  · intro p hp
    exact validateCreate_error_conds (Or.inr (Or.inr hp))
  · intro u q hq hle
    cases hv : validateUpdate u with
    | error e => exact ⟨e, rfl⟩
    | ok v =>
      obtain ⟨-, hpos⟩ := validateUpdate_ok_price hv
      exact absurd (hpos q hq) (not_lt.mpr hle)
  · intro db hreach
    induction hreach with
    | empty => intro it hit; exact absurd hit (List.not_mem_nil it)
    | createStep db now p c hr hval ih =>
      intro it hit
      rcases List.mem_append.mp hit with h | h
      · exact ih it h
      · obtain ⟨-, hcp, -, -, -, -, hppos⟩ := validateCreate_ok_fields hval
        have hit2 : it = (create_item db now c).1 := by simpa using h
        subst hit2
        show 0 < c.price
        rw [hcp]
        exact hppos
    | updateStep db i uraw u now it2 db2 hr hval hupd ih =>
      intro y hy
      obtain ⟨it, hget, hit2, hitems, -⟩ := update_item_ok_parts hupd
      rw [hitems] at hy
      obtain ⟨x, hx, hfx⟩ := List.mem_map.mp hy
      by_cases hxi : (x.id == i) = true
      · rw [if_pos hxi] at hfx
        subst hfx
        rw [hit2]
        obtain ⟨hprice, hpos⟩ := validateUpdate_ok_price hval
        show 0 < u.price.getD it.price
        cases hq : u.price with
        | none => simpa using ih it (get_item_ok_mem hget).1
        | some q =>
          have hq2 : uraw.price = some q := by rw [← hprice]; exact hq
          simpa using hpos q hq2
      · rw [if_neg hxi] at hfx
        subst hfx
        exact ih x hx
    | deleteStep db i db2 hr hdel ih =>
      intro y hy
      unfold delete_item at hdel
      cases hget : get_item db i with
      | error e => rw [hget] at hdel; exact absurd hdel (by simp)
      | ok it =>
        rw [hget] at hdel
        have hdb2 := Except.ok.inj hdel
        rw [← hdb2] at hy
        exact ih y (List.mem_filter.mp hy).1


/-- The one-item store `dbOne` is reachable through validated requests. -/
theorem reachable_dbOne : Reachable dbOne :=
  Reachable.createStep DB.empty 3 (minimalPayload "Test Item" 1) cTest
    Reachable.empty (by decide)

/-- Witness for `price_positive_invariant`: the payloads with price `-10.0`
are rejected, and the reachable one-item store holds only positive prices. -/
theorem price_positive_invariant_witness :
    (∃ e, validateCreate (minimalPayload "Invalid Item" (Rat.divInt (-10) 1)) =
      Except.error e) ∧
    (∃ e, validateUpdate uNegPrice = Except.error e) ∧
    (∀ it ∈ dbOne.items, 0 < it.price) :=
  ⟨price_positive_invariant.1 _ (by decide),
   price_positive_invariant.2.1 uNegPrice (Rat.divInt (-10) 1) rfl (by decide),
   price_positive_invariant.2.2 dbOne reachable_dbOne⟩


/-- Counterexample to C9: the creation payload whose name is three spaces is
accepted by validation (pydantic applies `min_length=1` to the raw input
before the `validate_name` strip runs), producing a stored name that is the
empty string — no Validation error is raised and the record is stored. -/
theorem name_whitespace_accepted :
    validateCreate (minimalPayload "   " 1) = Except.ok wsValidated ∧
    pyStrip "   " = "" ∧
    wsValidated.name = "" ∧
    (create_item DB.empty 0 wsValidated).1.name = "" ∧
    (create_item DB.empty 0 wsValidated).1 ∈ (create_item DB.empty 0 wsValidated).2.items := by
  refine ⟨by decide, by decide, rfl, rfl, ?_⟩
  simp [create_item]

/-- C9 amended: the name is accepted exactly when the raw, untrimmed name has
between 1 and 100 characters; the stored name is the trimmed input, which may
be empty when the input is whitespace-only. -/
theorem name_validation_raw_length (p : CreatePayload) :
    (∀ c, validateCreate p = Except.ok c →
      1 ≤ p.name.length ∧ p.name.length ≤ 100 ∧ c.name = pyStrip p.name) ∧
    ((p.name.length < 1 ∨ 100 < p.name.length) →
      ∃ e, validateCreate p = Except.error e) := by
  constructor
  · intro c hc
    obtain ⟨hname, -, -, -, hl1, hl2, -⟩ := validateCreate_ok_fields hc
    exact ⟨hl1, hl2, hname⟩
  · intro h
    rcases h with h | h
    · exact validateCreate_error_conds (Or.inl h)
    · exact validateCreate_error_conds (Or.inr (Or.inl h))

/-- Witness for `name_validation_raw_length`: the truly empty raw name is
rejected. -/
theorem name_validation_raw_length_witness :
    ∃ e, validateCreate (minimalPayload "" 1) = Except.error e :=
  (name_validation_raw_length (minimalPayload "" 1)).2 (Or.inl (by decide))

/-- C10: the read-only operations `get_item`, `list_items` and
`get_item_count` leave the store exactly as it was, whether they succeed or
raise `NotFoundError`; in the uniform state-passing semantics `runOp` their
post-state is the pre-state. -/
theorem read_ops_preserve_store (db : DB) (i : String) (skip limit : Nat)
    (available_only : Bool) :
    (runOp db (Op.getOp i)).2 = db ∧
    (runOp db (Op.listOp skip limit available_only)).2 = db ∧
    (runOp db (Op.countOp available_only)).2 = db :=
  ⟨rfl, rfl, rfl⟩
